import Mathlib

/-!
Shallow embedding of `src/features/commands.ts` (omnisharp-vscode command
registration module): the dnx command-catalog builders, the restore
operations, the dotnet-restore command, the tasks.json scaffolding pipeline,
and the last-command memory slot.

Conventions of the embedding:
* A JavaScript object's `Commands` map is modelled as the list of its keys in
  iteration order (`commands : List String`); the command metadata values are
  never read by the source.
* `project.Name || fallback` is modelled with the empty string as the falsy
  name.
* Promise-returning operations are modelled as pure functions returning an
  `Except` result together with the ordered list of external effects they
  perform (server fetch, quick-pick display, terminal invocation, filesystem
  writes, notifications).
* The module-level mutable `lastCommand` slot is modelled by explicit state
  passing: an entry's `execute` body is a list of effects, and `runExec`
  folds such a list over an `Option DnxEntry` slot, stopping after a failed
  terminal invocation (a rejected promise skips the continuation).
* Node's `path.basename`, `path.dirname` and `path.join` (posix flavour) are
  modelled directly on character lists; dot-segment normalisation of `join`
  is not modelled, as no claim depends on it.
* The platform test `isWin` and the filesystem (`pathHelpers.exists`,
  `pathHelpers.getPathKind`, `pathHelpers.mkdir`) are parameters.
-/

namespace Commands

/-- Kind of a filesystem path, mirroring `pathHelpers.PathKind`. -/
inductive PathKind where
  | file
  | directory
deriving DecidableEq

/-- Model of the external filesystem collaborators used by the source:
`pathHelpers.exists`, `pathHelpers.getPathKind` and whether
`pathHelpers.mkdir` would succeed on a given directory. -/
structure Fs where
  pathExists : String → Bool
  pathKind : String → PathKind
  mkdirOk : String → Bool

/-- Node posix `path.basename`: the final path segment, ignoring trailing
slashes. -/
def basename (p : String) : String :=
  String.mk (((p.data.reverse.dropWhile (· == '/')).takeWhile (· != '/')).reverse)

/-- Node posix `path.dirname`: everything before the final segment, with
`"."` for slash-free relative paths and `"/"` for top-level absolute ones. -/
def dirname (p : String) : String :=
  let rev := p.data.reverse.dropWhile (· == '/')
  let rest := rev.dropWhile (· != '/')
  let rest2 := rest.dropWhile (· == '/')
  if rest2.isEmpty then
    if p.data.head? == some '/' then "/" else "."
  else
    String.mk rest2.reverse

/-- Node posix `path.join` restricted to two segments; dot-segment
normalisation is not modelled. -/
def pathJoin (a b : String) : String :=
  if a = "" then b
  else if a.data.getLast? == some '/' then a ++ b
  else a ++ "/" ++ b

/-- One project of `info.Dnx.Projects`: the fields of `proto.DnxProject`
that the source reads. `commands` is the key list of the `Commands` object
in iteration order. -/
structure DnxProject where
  name : String
  path : String
  commands : List String
deriving DecidableEq

/-- The `info.Dnx` part of `proto.WorkspaceInformationResponse`. -/
structure DnxInfo where
  runtimePath : String
  projects : List DnxProject
deriving DecidableEq

/-- The workspace information snapshot returned by the `Projects` request. -/
structure WorkspaceInfo where
  dnx : DnxInfo
deriving DecidableEq

/-- The slice of `OmnisharpServer` state the source consults: the running
flag, the snapshot that a `Projects` request would return, and
`getSolutionPathOrFolder()`. -/
structure Server where
  running : Bool
  info : WorkspaceInfo
  solutionPathOrFolder : Option String
deriving DecidableEq

/-- `project.Name || path.basename(project.Path)`: the display name used in
labels, with the basename as fallback for a falsy (empty) name. -/
def displayName (project : DnxProject) : String :=
  if project.name = "" then basename project.path else project.name

/-- Data captured by a generic dnx catalog entry: the label and description
shown in the picker plus everything its `execute` closure closes over. -/
structure DnxEntry where
  label : String
  description : String
  runtimePath : String
  key : String
  projectPath : String
deriving DecidableEq

/-- Data captured by a restore catalog entry of `dnxRestoreForAll`. -/
structure RestoreEntry where
  label : String
  description : String
  runtimePath : String
  projectPath : String
deriving DecidableEq

/-- A digit of the character class `[1-6]`. -/
def isBetaDigit (c : Char) : Bool :=
  '1' ≤ c && c ≤ '6'

/-- Whether the regex `-beta[1-6]` matches at the head of the list. -/
def startsBetaQuirk (l : List Char) : Bool :=
  match l with
  | c0 :: c1 :: c2 :: c3 :: c4 :: d :: _ =>
      c0 == '-' && c1 == 'b' && c2 == 'e' && c3 == 't' && c4 == 'a' && isBetaDigit d
  | _ => false

/-- The regex test `-beta[1-6]` against `s`: the pattern matches at some
position. -/
def hasBetaQuirk : List Char → Bool
  | [] => false
  | c :: rest => startsBetaQuirk (c :: rest) || hasBetaQuirk rest

/-- Whether `needle` occurs at the head of `hay`. -/
def startsWithSeq (needle hay : List Char) : Bool :=
  needle == hay.take needle.length

/-- Whether `needle` occurs contiguously anywhere in `hay` (substring
containment on character lists). -/
def containsSeq (needle : List Char) : List Char → Bool
  | [] => needle.isEmpty
  | c :: rest => startsWithSeq needle (c :: rest) || containsSeq needle rest

/-- Argument resolution of the generic entry's `execute`: `[key]`, with a
leading `.` prepended when the runtime path matches `-beta[1-6]`
(lines 92-97 of the source). -/
def resolveDnxArgs (runtimePath key : String) : List String :=
  if hasBetaQuirk runtimePath.data then "." :: [key] else [key]

/-- Executable resolution of the generic entry: `join(runtimePath, "bin/dnx")`
plus `".exe"` on Windows (lines 91, 99-101). -/
def resolveDnxCommand (onWindows : Bool) (runtimePath : String) : String :=
  let command := pathJoin runtimePath "bin/dnx"
  if onWindows then command ++ ".exe" else command

/-- Executable resolution of the restore executors:
`join(runtimePath, "bin/dnu")` plus `".cmd"` on Windows
(lines 138-141 and 163-166). -/
def resolveRestoreCommand (onWindows : Bool) (runtimePath : String) : String :=
  let command := pathJoin runtimePath "bin/dnu"
  if onWindows then command ++ ".cmd" else command

/-- The catalog entry pushed for one `(project, key)` pair by
`dnxExecuteCommand` (lines 85-110). -/
def mkDnxCommandEntry (runtimePath : String) (project : DnxProject) (key : String) : DnxEntry :=
  { label := "dnx " ++ key ++ " - (" ++ displayName project ++ ")"
    description := dirname project.path
    runtimePath := runtimePath
    key := key
    projectPath := project.path }

/-- The catalog entry pushed for one project by `dnxRestoreForAll`
(lines 133-147). -/
def mkRestoreEntry (runtimePath : String) (project : DnxProject) : RestoreEntry :=
  { label := "dnu restore - (" ++ displayName project ++ ")"
    description := dirname project.path
    runtimePath := runtimePath
    projectPath := project.path }

/-- The generic command catalog of `dnxExecuteCommand`: the nested
`forEach`/`push` loop of lines 80-112, as a nested left fold accumulating
pushes. -/
def dnxExecuteCatalog (info : WorkspaceInfo) : List DnxEntry :=
  info.dnx.projects.foldl
    (fun commands project =>
      project.commands.foldl
        (fun commands key => commands ++ [mkDnxCommandEntry info.dnx.runtimePath project key])
        commands)
    []

/-- The restore catalog of `dnxRestoreForAll`: the `forEach`/`push` loop of
lines 130-148. -/
def dnxRestoreCatalog (info : WorkspaceInfo) : List RestoreEntry :=
  info.dnx.projects.foldl
    (fun commands project => commands ++ [mkRestoreEntry info.dnx.runtimePath project])
    []

/-- External effects an operation performs, in order. -/
inductive Effect where
  | fetchProjects
  | showQuickPick (labels : List String)
  | setLast (entry : DnxEntry)
  | showInfo (msg : String)
  | mkdir (dir : String)
  | copy (src dst : String)
  | runTerminal (cmd : String) (args : List String) (cwd : String)
deriving DecidableEq

/-- `dnxExecuteCommand` up to the picker: reject with the not-running message
when the server is not running, otherwise fetch the snapshot, build the
generic catalog and present it (lines 72-119). -/
def dnxExecuteCommandRun (server : Server) : Except String (List DnxEntry) × List Effect :=
  if !server.running then
    (Except.error "OmniSharp server is not running.", [])
  else
    (Except.ok (dnxExecuteCatalog server.info),
      [Effect.fetchProjects, Effect.showQuickPick ((dnxExecuteCatalog server.info).map (·.label))])

/-- `dnxRestoreForAll` up to the picker (lines 122-156). -/
def dnxRestoreForAllRun (server : Server) : Except String (List RestoreEntry) × List Effect :=
  if !server.running then
    (Except.error "OmniSharp server is not running.", [])
  else
    (Except.ok (dnxRestoreCatalog server.info),
      [Effect.fetchProjects, Effect.showQuickPick ((dnxRestoreCatalog server.info).map (·.label))])

/-- `dnxRestoreForProject` (lines 158-176): fetch the snapshot with no
running-state gate, run the restore of the first project whose `Path` equals
`fileName`, and otherwise reject with the manual-command hint. -/
def dnxRestoreForProjectRun (onWindows : Bool) (server : Server) (fileName : String) :
    Except String Unit × List Effect :=
  match server.info.dnx.projects.find? (fun project => project.path == fileName) with
  | some project =>
      (Except.ok (),
        [Effect.fetchProjects,
          Effect.runTerminal (resolveRestoreCommand onWindows server.info.dnx.runtimePath)
            ["restore"] (dirname project.path)])
  | none =>
      (Except.error ("Failed to execute restore, try to run 'dnu restore' manually for "
          ++ fileName ++ "."),
        [Effect.fetchProjects])

/-- The `solutionDirectory` computed by `dotnetRestore`'s `getPathKind`
stage (lines 189-196): the containing directory when the known path is a
file, the path itself otherwise. -/
def computeSolutionDirectory (fs : Fs) (solutionPathOrFolder : String) : String :=
  if fs.pathKind solutionPathOrFolder = PathKind.file then dirname solutionPathOrFolder
  else solutionPathOrFolder

/-- `dotnetRestore` (lines 178-201). The source computes
`solutionDirectory` and then passes `solutionPathOrFolder`, not the computed
directory, as the terminal's cwd. -/
def dotnetRestoreRun (fs : Fs) (server : Server) : Except String Unit × List Effect :=
  if !server.running then
    (Except.error "OmniSharp server is not running.", [])
  else
    match server.solutionPathOrFolder with
    | none => (Except.error "No solution or folder open.", [])
    | some solutionPathOrFolder =>
        let _solutionDirectory := computeSolutionDirectory fs solutionPathOrFolder
        (Except.ok (), [Effect.runTerminal "dotnet" ["restore"] solutionPathOrFolder])

/-- The `execute` body of a generic dnx catalog entry (lines 88-109): assign
the last-command slot, then invoke the terminal. -/
def dnxEntryExec (onWindows : Bool) (entry : DnxEntry) : List Effect :=
  [Effect.setLast entry,
    Effect.runTerminal (resolveDnxCommand onWindows entry.runtimePath)
      (resolveDnxArgs entry.runtimePath entry.key) (dirname entry.projectPath)]

/-- The `execute` body of a restore catalog entry (lines 136-146): invoke the
terminal only. -/
def restoreEntryExec (onWindows : Bool) (entry : RestoreEntry) : List Effect :=
  [Effect.runTerminal (resolveRestoreCommand onWindows entry.runtimePath)
      ["restore"] (dirname entry.projectPath)]

/-- Run an effect list against the `lastCommand` slot: `setLast` overwrites
the slot, a failed terminal invocation stops the rest of the chain (a
rejected promise skips the continuation), every other effect leaves the slot
alone. -/
def runExec (terminalOk : Bool) : Option DnxEntry → List Effect → Option DnxEntry
  | last, [] => last
  | _, Effect.setLast entry :: rest => runExec terminalOk (some entry) rest
  | last, Effect.runTerminal _ _ _ :: rest =>
      if terminalOk then runExec terminalOk last rest else last
  | last, _ :: rest => runExec terminalOk last rest

/-- `ensureDirectoryCreated` (lines 203-212): an existing folder is success
with no effect, otherwise one `mkdir` whose success is the filesystem's. -/
def ensureDirectoryCreated (fs : Fs) (directoryPath : String) : Bool × List Effect :=
  if fs.pathExists directoryPath then (true, [])
  else (fs.mkdirOk directoryPath, [Effect.mkdir directoryPath])

/-- `getExpectedVsCodeFolderPath` (lines 214-223). -/
def getExpectedVsCodeFolderPath (fs : Fs) (solutionPathOrFolder : String) : String :=
  if fs.pathKind solutionPathOrFolder = PathKind.file then
    pathJoin (dirname solutionPathOrFolder) ".vscode"
  else
    pathJoin solutionPathOrFolder ".vscode"

/-- `addTasksJson` (lines 225-271): the scaffolding pipeline, returning the
resolved or rejected value together with its effects in order. -/
def addTasksJson (fs : Fs) (server : Server) (extensionPath : String) :
    Except String String × List Effect :=
  if !server.running then
    (Except.error "OmniSharp is not running.", [])
  else
    match server.solutionPathOrFolder with
    | none => (Except.error "No solution or folder open.", [])
    | some solutionPathOrFolder =>
        let vscodeFolderPath := getExpectedVsCodeFolderPath fs solutionPathOrFolder
        let tasksJsonPath := pathJoin vscodeFolderPath "tasks.json"
        if fs.pathExists tasksJsonPath then
          (Except.ok tasksJsonPath, [Effect.showInfo (tasksJsonPath ++ " already exists.")])
        else
          let templatePath := pathJoin extensionPath "template-tasks.json"
          if !fs.pathExists templatePath then
            (Except.error "Could not find template-tasks.json file in extension.", [])
          else
            let created := ensureDirectoryCreated fs vscodeFolderPath
            if created.1 then
              (Except.ok tasksJsonPath, created.2 ++ [Effect.copy templatePath tasksJsonPath])
            else
              (Except.error ("Could not create " ++ vscodeFolderPath ++ " directory."), created.2)

/-- Interpretation of one effect on the modelled filesystem: a successful
`mkdir` and a `copy` create their targets, everything else is
filesystem-neutral. -/
def applyEffect (fs : Fs) : Effect → Fs
  | Effect.mkdir dir =>
      if fs.mkdirOk dir then
        { fs with
          pathExists := fun p => p == dir || fs.pathExists p
          pathKind := fun p => if p == dir then PathKind.directory else fs.pathKind p }
      else fs
  | Effect.copy _ dst =>
      { fs with
        pathExists := fun p => p == dst || fs.pathExists p
        pathKind := fun p => if p == dst then PathKind.file else fs.pathKind p }
  | _ => fs

/-- Interpretation of an effect list on the modelled filesystem. -/
def applyEffects (fs : Fs) (effects : List Effect) : Fs :=
  effects.foldl applyEffect fs

/-- Fixture: a snapshot with two distinct projects that share the name
`app` and the command key `run`. -/
def dupInfo : WorkspaceInfo :=
  { dnx :=
    { runtimePath := "/rt/dnx-1.0"
      projects :=
        [ { name := "app", path := "/x/project.json", commands := ["run"] }
        , { name := "app", path := "/y/project.json", commands := ["run"] } ] } }

/-- Fixture: a one-project snapshot. -/
def sampleInfo : WorkspaceInfo :=
  { dnx :=
    { runtimePath := "/rt/dnx-1.0"
      projects := [ { name := "app", path := "/x/project.json", commands := ["run"] } ] } }

/-- Fixture: a server that reports it is not running. -/
def stoppedServer : Server :=
  { running := false, info := sampleInfo, solutionPathOrFolder := none }

/-- Fixture: a running server whose known solution path is a file. -/
def slnServer : Server :=
  { running := true, info := sampleInfo, solutionPathOrFolder := some "/work/app.sln" }

/-- Fixture: a filesystem on which every path exists and is a file. -/
def allFilesFs : Fs :=
  { pathExists := fun _ => true, pathKind := fun _ => PathKind.file, mkdirOk := fun _ => true }

/-- Fixture: a filesystem on which every path is a directory that exists. -/
def allDirsFs : Fs :=
  { pathExists := fun _ => true, pathKind := fun _ => PathKind.directory, mkdirOk := fun _ => true }

theorem foldl_push_eq_map {α β : Type} (f : α → β) (l : List α) (init : List β) :
    l.foldl (fun acc x => acc ++ [f x]) init = init ++ l.map f := by
  induction l generalizing init with
  | nil => simp
  | cons x xs ih => simp [ih, List.append_assoc]

theorem foldl_append_block {α β : Type} (g : α → List β) (l : List α) (init : List β) :
    l.foldl (fun acc x => acc ++ g x) init = init ++ l.flatMap g := by
  induction l generalizing init with
  | nil => simp
  | cons x xs ih => simp [ih, List.append_assoc]

theorem catalogFold_eq (rt : String) (ps : List DnxProject) (init : List DnxEntry) :
    ps.foldl
      (fun commands project =>
        project.commands.foldl
          (fun commands key => commands ++ [mkDnxCommandEntry rt project key]) commands)
      init
    = init ++ ps.flatMap (fun p => p.commands.map (mkDnxCommandEntry rt p)) := by
  simp only [foldl_push_eq_map]
  exact foldl_append_block _ _ _

theorem dnxExecuteCatalog_eq (info : WorkspaceInfo) :
    dnxExecuteCatalog info
      = info.dnx.projects.flatMap
          (fun project => project.commands.map (mkDnxCommandEntry info.dnx.runtimePath project)) := by
  unfold dnxExecuteCatalog
  simpa using catalogFold_eq info.dnx.runtimePath info.dnx.projects []

theorem dnxRestoreCatalog_eq (info : WorkspaceInfo) :
    dnxRestoreCatalog info = info.dnx.projects.map (mkRestoreEntry info.dnx.runtimePath) := by
  unfold dnxRestoreCatalog
  simpa using foldl_push_eq_map (mkRestoreEntry info.dnx.runtimePath) info.dnx.projects []

/-- C1: for every snapshot, the generic catalog of `dnxExecuteCommand` is
exactly one entry per (project, command-key) pair, in project order then
command-key iteration order, hence of length ΣMi; the restore catalog of
`dnxRestoreForAll` is exactly one entry per project, in project order, hence
of length N. -/
theorem dnx_catalog_shape (info : WorkspaceInfo) :
    dnxExecuteCatalog info
        = info.dnx.projects.flatMap
            (fun project => project.commands.map (mkDnxCommandEntry info.dnx.runtimePath project))
      ∧ (dnxExecuteCatalog info).length
        = (info.dnx.projects.map (fun project => project.commands.length)).sum
      ∧ dnxRestoreCatalog info = info.dnx.projects.map (mkRestoreEntry info.dnx.runtimePath)
      ∧ (dnxRestoreCatalog info).length = info.dnx.projects.length := by
  refine ⟨dnxExecuteCatalog_eq info, ?_, dnxRestoreCatalog_eq info, ?_⟩
  · rw [dnxExecuteCatalog_eq]
    simp [List.length_flatMap, Function.comp_def, List.length_map]
  · rw [dnxRestoreCatalog_eq]
    simp

/-- C9: on a Windows-family platform the generic executor resolves
`<runtimePath>/bin/dnx` with `.exe` appended and the restore executor
`<runtimePath>/bin/dnu` with `.cmd` appended; on any other platform neither
suffix is appended. -/
theorem executable_platform_suffix (runtimePath : String) :
    resolveDnxCommand true runtimePath = pathJoin runtimePath "bin/dnx" ++ ".exe"
      ∧ resolveRestoreCommand true runtimePath = pathJoin runtimePath "bin/dnu" ++ ".cmd"
      ∧ resolveDnxCommand false runtimePath = pathJoin runtimePath "bin/dnx"
      ∧ resolveRestoreCommand false runtimePath = pathJoin runtimePath "bin/dnu" :=
  ⟨rfl, rfl, rfl, rfl⟩

theorem startsBetaQuirk_beta3 (t : List Char) :
    startsBetaQuirk ('-' :: 'b' :: 'e' :: 't' :: 'a' :: '3' :: t) = true := rfl

theorem hasBetaQuirk_cons (c : Char) (l : List Char) :
    hasBetaQuirk (c :: l) = (startsBetaQuirk (c :: l) || hasBetaQuirk l) := rfl

theorem hasBetaQuirk_of_tail {l : List Char} (c : Char) (h : hasBetaQuirk l = true) :
    hasBetaQuirk (c :: l) = true := by
  rw [hasBetaQuirk_cons, h, Bool.or_true]

theorem startsWithSeq_eq_true {needle hay : List Char} (h : startsWithSeq needle hay = true) :
    ∃ t, hay = needle ++ t := by
  unfold startsWithSeq at h
  have h2 : needle = hay.take needle.length := eq_of_beq h
  refine ⟨hay.drop needle.length, ?_⟩
  conv_lhs => rw [← List.take_append_drop needle.length hay]
  rw [← h2]

theorem hasBetaQuirk_of_beta3_tail (t : List Char) :
    hasBetaQuirk ('-' :: 'b' :: 'e' :: 't' :: 'a' :: '3' :: t) = true := by
  rw [hasBetaQuirk_cons, startsBetaQuirk_beta3, Bool.true_or]

theorem hasBetaQuirk_of_containsSeq_beta3 (l : List Char)
    (h : containsSeq "-beta3".data l = true) : hasBetaQuirk l = true := by
  induction l with
  | nil => exact absurd h (by decide)
  | cons c rest ih =>
      rw [show containsSeq "-beta3".data (c :: rest)
            = (startsWithSeq "-beta3".data (c :: rest) || containsSeq "-beta3".data rest) from rfl,
        Bool.or_eq_true] at h
      cases h with
      | inl hs =>
          obtain ⟨t, ht⟩ := startsWithSeq_eq_true hs
          rw [ht, show "-beta3".data = ['-', 'b', 'e', 't', 'a', '3'] from rfl]
          exact hasBetaQuirk_of_beta3_tail t
      | inr hr => exact hasBetaQuirk_of_tail c (ih hr)

/-- C3: a generic entry resolves its arguments to `['.', key]` exactly when
the runtime path matches the beta-1-to-6 pre-release pattern, and to `[key]`
otherwise; in particular a runtime path containing `-beta3` yields
`['.', key]` and the path `/runtimes/dnx-beta7` yields `[key]`. -/
theorem dnx_args_beta_quirk :
    (∀ runtimePath key : String,
        (resolveDnxArgs runtimePath key = [".", key] ↔ hasBetaQuirk runtimePath.data = true))
      ∧ (∀ runtimePath key : String,
          containsSeq "-beta3".data runtimePath.data = true →
            resolveDnxArgs runtimePath key = [".", key])
      ∧ (∀ key : String, resolveDnxArgs "/runtimes/dnx-beta7" key = [key]) := by
  refine ⟨?_, ?_, ?_⟩
  · intro rp key
    unfold resolveDnxArgs
    by_cases h : hasBetaQuirk rp.data = true
    · simp [h]
    · simp [h]
  · intro rp key h
    have hq := hasBetaQuirk_of_containsSeq_beta3 rp.data h
    simp [resolveDnxArgs, hq]
  · intro key
    simp [resolveDnxArgs, show hasBetaQuirk "/runtimes/dnx-beta7".data = false from by decide]

/-- C3 witness: at the concrete runtime path `/runtimes/dnx-beta3` (which
contains `-beta3`) and key `run`, the resolved argument list is
`['.', 'run']`. -/
theorem dnx_args_beta_quirk_witness :
    resolveDnxArgs "/runtimes/dnx-beta3" "run" = [".", "run"] :=
  dnx_args_beta_quirk.2.1 "/runtimes/dnx-beta3" "run" (by decide)

theorem string_append_inj_aux (a n1 n2 c : String) (h : a ++ n1 ++ c = a ++ n2 ++ c) :
    n1 = n2 := by
  have hd := congrArg String.data h
  simp only [String.data_append, List.append_assoc] at hd
  exact String.ext (List.append_cancel_right (List.append_cancel_left hd))

/-- C2 counterexample: in the snapshot `dupInfo`, two distinct projects named
`app` both expose the command `run`, and the generic catalog's labels are
`dnx run - (app)` twice: labels are not unique within one catalog build. -/
theorem dnx_label_unique_counterexample :
    ((dnxExecuteCatalog dupInfo).map (fun entry => entry.label))
        = ["dnx run - (app)", "dnx run - (app)"]
      ∧ ¬ ((dnxExecuteCatalog dupInfo).map (fun entry => entry.label)).Nodup :=
  ⟨by decide, by decide⟩

/-- C2 (amended): a catalog entry's label is qualified with the project's
display name (the project name, falling back to the basename of its path
when the name is empty), so two projects with the same command key get
distinct labels whenever their display names are distinct; uniqueness is
not guaranteed when two projects share a display name. -/
theorem dnx_label_distinct_of_display_ne (rt : String) (p q : DnxProject) (key : String)
    (h : displayName p ≠ displayName q) :
    (mkDnxCommandEntry rt p key).label ≠ (mkDnxCommandEntry rt q key).label
      ∧ (mkRestoreEntry rt p).label ≠ (mkRestoreEntry rt q).label := by
  constructor
  · intro hl
    exact h (string_append_inj_aux ("dnx " ++ key ++ " - (") (displayName p) (displayName q) ")" hl)
  · intro hl
    exact h (string_append_inj_aux "dnu restore - (" (displayName p) (displayName q) ")" hl)

/-- C2 witness: two concrete projects named `A` and `B`, both exposing the
key `run`, have distinct generic labels and distinct restore labels. -/
theorem dnx_label_distinct_witness :
    (mkDnxCommandEntry "/rt" ⟨"A", "/x/p.json", ["run"]⟩ "run").label
        ≠ (mkDnxCommandEntry "/rt" ⟨"B", "/y/p.json", ["run"]⟩ "run").label
      ∧ (mkRestoreEntry "/rt" ⟨"A", "/x/p.json", ["run"]⟩).label
        ≠ (mkRestoreEntry "/rt" ⟨"B", "/y/p.json", ["run"]⟩).label :=
  dnx_label_distinct_of_display_ne "/rt" ⟨"A", "/x/p.json", ["run"]⟩
    ⟨"B", "/y/p.json", ["run"]⟩ "run" (by decide)

/-- C4 counterexample: with the server stopped, `dnxRestoreForProject` still
performs the snapshot fetch as its first step and completes the restore,
rather than failing with the not-running error: it has no not-running
precondition. -/
theorem restoreForProject_no_gate_counterexample :
    stoppedServer.running = false
      ∧ (dnxRestoreForProjectRun false stoppedServer "/x/project.json").1 = Except.ok ()
      ∧ (dnxRestoreForProjectRun false stoppedServer "/x/project.json").2
        = [Effect.fetchProjects, Effect.runTerminal "/rt/dnx-1.0/bin/dnu" ["restore"] "/x"]
      ∧ (dnxRestoreForProjectRun false stoppedServer "/x/project.json").1
        ≠ Except.error "OmniSharp server is not running." := by
  refine ⟨rfl, rfl, by decide, ?_⟩
  have h1 : (dnxRestoreForProjectRun false stoppedServer "/x/project.json").1 = Except.ok () := rfl
  rw [h1]
  exact fun hc => Except.noConfusion hc

/-- C4 (amended): `dnxRestoreForProject` checks no not-running precondition:
its outcome and effects are independent of the server's running flag, and
its first effect is always the snapshot fetch. -/
theorem restoreForProject_ignores_running (onWindows b : Bool) (server : Server)
    (fileName : String) :
    dnxRestoreForProjectRun onWindows { server with running := b } fileName
        = dnxRestoreForProjectRun onWindows server fileName
      ∧ (dnxRestoreForProjectRun onWindows server fileName).2.head? = some Effect.fetchProjects := by
  refine ⟨rfl, ?_⟩
  unfold dnxRestoreForProjectRun
  cases h : server.info.dnx.projects.find? (fun project => project.path == fileName) <;> simp

/-- C5: on a running server whose known solution path is a file,
`dotnetRestore` passes the raw solution path itself, not the containing
directory it computed, as the terminal's working directory. -/
theorem dotnetRestore_cwd_is_raw_path :
    slnServer.running = true
      ∧ allFilesFs.pathKind "/work/app.sln" = PathKind.file
      ∧ computeSolutionDirectory allFilesFs "/work/app.sln" = "/work"
      ∧ (dotnetRestoreRun allFilesFs slnServer).2
        = [Effect.runTerminal "dotnet" ["restore"] "/work/app.sln"]
      ∧ ("/work/app.sln" : String) ≠ "/work" :=
  ⟨rfl, rfl, by decide, by decide, by decide⟩

theorem startsWithSeq_refl_append (n t : List Char) : startsWithSeq n (n ++ t) = true := by
  unfold startsWithSeq
  rw [List.take_left]
  exact beq_self_eq_true n

theorem containsSeq_of_startsWithSeq {n : List Char} : ∀ {hay : List Char},
    startsWithSeq n hay = true → containsSeq n hay = true := by
  intro hay h
  cases hay with
  | nil =>
      have hn : n = [] := by simpa [startsWithSeq] using eq_of_beq h
      simp [containsSeq, hn]
  | cons c rest =>
      rw [show containsSeq n (c :: rest) = (startsWithSeq n (c :: rest) || containsSeq n rest)
          from rfl, h, Bool.true_or]

theorem containsSeq_tail {n : List Char} (c : Char) {rest : List Char}
    (h : containsSeq n rest = true) : containsSeq n (c :: rest) = true := by
  rw [show containsSeq n (c :: rest) = (startsWithSeq n (c :: rest) || containsSeq n rest)
      from rfl, h, Bool.or_true]

theorem containsSeq_middle (n pre suf : List Char) :
    containsSeq n (pre ++ (n ++ suf)) = true := by
  induction pre with
  | nil => exact containsSeq_of_startsWithSeq (startsWithSeq_refl_append n suf)
  | cons c pre ih => exact containsSeq_tail c ih

/-- C6: `dnxRestoreForProject` runs the restore of exactly the first project
whose path equals the requested path, with no picker effect and no other
terminal invocation; when no project path equals it, it rejects with a
message that contains the requested path and the manual command
`dnu restore`. -/
theorem restoreForProject_exact_match (onWindows : Bool) (server : Server) (fileName : String) :
    (∀ project, server.info.dnx.projects.find? (fun p => p.path == fileName) = some project →
        project.path = fileName
          ∧ dnxRestoreForProjectRun onWindows server fileName
            = (Except.ok (),
                [Effect.fetchProjects,
                  Effect.runTerminal (resolveRestoreCommand onWindows server.info.dnx.runtimePath)
                    ["restore"] (dirname project.path)]))
      ∧ (server.info.dnx.projects.find? (fun p => p.path == fileName) = none →
          (∀ project ∈ server.info.dnx.projects, ¬ project.path = fileName)
            ∧ dnxRestoreForProjectRun onWindows server fileName
              = (Except.error ("Failed to execute restore, try to run 'dnu restore' manually for "
                    ++ fileName ++ "."),
                  [Effect.fetchProjects]))
      ∧ containsSeq fileName.data
          ("Failed to execute restore, try to run 'dnu restore' manually for "
            ++ fileName ++ ".").data = true
      ∧ containsSeq "dnu restore".data
          ("Failed to execute restore, try to run 'dnu restore' manually for "
            ++ fileName ++ ".").data = true := by
  refine ⟨?_, ?_, ?_, ?_⟩
  · intro project hfind
    have hp := List.find?_some hfind
    refine ⟨eq_of_beq (by simpa using hp), ?_⟩
    unfold dnxRestoreForProjectRun
    rw [hfind]
  · intro hnone
    constructor
    · intro project hmem heq
      exact List.find?_eq_none.1 hnone project hmem (by simp [heq])
    · unfold dnxRestoreForProjectRun
      rw [hnone]
  · have hd : ("Failed to execute restore, try to run 'dnu restore' manually for "
          ++ fileName ++ ".").data
        = "Failed to execute restore, try to run 'dnu restore' manually for ".data
            ++ (fileName.data ++ ".".data) := by
      simp [String.data_append, List.append_assoc]
    rw [hd]
    exact containsSeq_middle _ _ _
  · have hsplit : ("Failed to execute restore, try to run 'dnu restore' manually for " : String)
        = "Failed to execute restore, try to run '" ++ ("dnu restore" ++ "' manually for ") := by
      decide
    have hd : ("Failed to execute restore, try to run 'dnu restore' manually for "
          ++ fileName ++ ".").data
        = "Failed to execute restore, try to run '".data
            ++ ("dnu restore".data ++ ("' manually for ".data ++ (fileName.data ++ ".".data))) := by
      rw [hsplit]
      simp [String.data_append, List.append_assoc]
    rw [hd]
    exact containsSeq_middle _ _ _

/-- C6 witness: in the two-project snapshot `dupInfo` with paths
`/x/project.json` and `/y/project.json`, requesting `/y/project.json` runs
exactly the second project's restore in its directory, with no picker. -/
theorem restoreForProject_exact_match_witness :
    dnxRestoreForProjectRun false ⟨true, dupInfo, none⟩ "/y/project.json"
      = (Except.ok (),
          [Effect.fetchProjects,
            Effect.runTerminal "/rt/dnx-1.0/bin/dnu" ["restore"] "/y"]) := by
  have h := (restoreForProject_exact_match false ⟨true, dupInfo, none⟩ "/y/project.json").1
    ⟨"app", "/y/project.json", ["run"]⟩ (by decide)
  refine h.2.trans ?_
  congr 1

/-- C7: when the target `<configFolder>/tasks.json` already exists,
`addTasksJson` notifies the user, resolves with the target path after no
write effect, and a second call in the resulting (unchanged) filesystem
state returns the same value with the same write-free effects. -/
theorem addTasksJson_existing_idempotent (fs : Fs) (server : Server) (extensionPath sp : String)
    (hrun : server.running = true)
    (hsol : server.solutionPathOrFolder = some sp)
    (hex : fs.pathExists (pathJoin (getExpectedVsCodeFolderPath fs sp) "tasks.json") = true) :
    addTasksJson fs server extensionPath
        = (Except.ok (pathJoin (getExpectedVsCodeFolderPath fs sp) "tasks.json"),
            [Effect.showInfo (pathJoin (getExpectedVsCodeFolderPath fs sp) "tasks.json"
                ++ " already exists.")])
      ∧ (∀ src dst, Effect.copy src dst ∉ (addTasksJson fs server extensionPath).2)
      ∧ addTasksJson (applyEffects fs (addTasksJson fs server extensionPath).2) server
          extensionPath
        = addTasksJson fs server extensionPath := by
  have hmain : addTasksJson fs server extensionPath
      = (Except.ok (pathJoin (getExpectedVsCodeFolderPath fs sp) "tasks.json"),
          [Effect.showInfo (pathJoin (getExpectedVsCodeFolderPath fs sp) "tasks.json"
              ++ " already exists.")]) := by
    simp [addTasksJson, hrun, hsol, hex]
  refine ⟨hmain, ?_, ?_⟩
  · intro src dst hmem
    rw [hmain] at hmem
    simp at hmem
  · rw [hmain]
    exact hmain

/-- C7 witness: on a filesystem where every path exists as a file and a
running server whose solution path is `/work/app.sln`, the call resolves
with `/work/.vscode/tasks.json`, and repeating it after applying the first
call's effects returns the same result. -/
theorem addTasksJson_existing_idempotent_witness :
    addTasksJson allFilesFs slnServer "/ext"
        = (Except.ok "/work/.vscode/tasks.json",
            [Effect.showInfo "/work/.vscode/tasks.json already exists."])
      ∧ addTasksJson (applyEffects allFilesFs (addTasksJson allFilesFs slnServer "/ext").2)
          slnServer "/ext"
        = addTasksJson allFilesFs slnServer "/ext" := by
  have h := addTasksJson_existing_idempotent allFilesFs slnServer "/ext" "/work/app.sln"
    rfl rfl rfl
  refine ⟨h.1.trans ?_, h.2.2⟩
  congr 1

/-- C8: `addTasksJson` fails fast with a human-readable rejection and
performs no copy on every error path (not running, no workspace, missing
template, failed folder creation, the last naming the folder), and the byte
copy, when it occurs, is the last effect of a successful run. -/
theorem addTasksJson_fail_fast (fs : Fs) (server : Server) (extensionPath : String) :
    (server.running = false →
        addTasksJson fs server extensionPath = (Except.error "OmniSharp is not running.", []))
      ∧ (server.running = true → server.solutionPathOrFolder = none →
          addTasksJson fs server extensionPath
            = (Except.error "No solution or folder open.", []))
      ∧ (∀ sp, server.running = true → server.solutionPathOrFolder = some sp →
          fs.pathExists (pathJoin (getExpectedVsCodeFolderPath fs sp) "tasks.json") = false →
          fs.pathExists (pathJoin extensionPath "template-tasks.json") = false →
          addTasksJson fs server extensionPath
            = (Except.error "Could not find template-tasks.json file in extension.", []))
      ∧ (∀ sp, server.running = true → server.solutionPathOrFolder = some sp →
          fs.pathExists (pathJoin (getExpectedVsCodeFolderPath fs sp) "tasks.json") = false →
          fs.pathExists (pathJoin extensionPath "template-tasks.json") = true →
          fs.pathExists (getExpectedVsCodeFolderPath fs sp) = false →
          fs.mkdirOk (getExpectedVsCodeFolderPath fs sp) = false →
          addTasksJson fs server extensionPath
            = (Except.error ("Could not create " ++ getExpectedVsCodeFolderPath fs sp
                  ++ " directory."),
                [Effect.mkdir (getExpectedVsCodeFolderPath fs sp)]))
      ∧ (∀ src dst, Effect.copy src dst ∈ (addTasksJson fs server extensionPath).2 →
          (addTasksJson fs server extensionPath).2.getLast? = some (Effect.copy src dst)
            ∧ ∃ sp, server.running = true ∧ server.solutionPathOrFolder = some sp
                ∧ (addTasksJson fs server extensionPath).1
                  = Except.ok (pathJoin (getExpectedVsCodeFolderPath fs sp) "tasks.json")) := by
  refine ⟨?_, ?_, ?_, ?_, ?_⟩
  · intro hr
    simp [addTasksJson, hr]
  · intro hr hsol
    simp [addTasksJson, hr, hsol]
  · intro sp hr hsol hnt ht
    simp [addTasksJson, hr, hsol, hnt, ht]
  · intro sp hr hsol hnt ht hvf hmk
    simp [addTasksJson, ensureDirectoryCreated, hr, hsol, hnt, ht, hvf, hmk]
  · intro src dst hmem
    cases hr : server.running with
    | false => simp [addTasksJson, hr] at hmem
    | true =>
      cases hsol : server.solutionPathOrFolder with
      | none => simp [addTasksJson, hr, hsol] at hmem
      | some sp =>
        cases hex : fs.pathExists (pathJoin (getExpectedVsCodeFolderPath fs sp) "tasks.json") with
        | true => simp [addTasksJson, hr, hsol, hex] at hmem
        | false =>
          cases ht : fs.pathExists (pathJoin extensionPath "template-tasks.json") with
          | false => simp [addTasksJson, hr, hsol, hex, ht] at hmem
          | true =>
            cases hvf : fs.pathExists (getExpectedVsCodeFolderPath fs sp) with
            | true =>
                have hres : addTasksJson fs server extensionPath
                    = (Except.ok (pathJoin (getExpectedVsCodeFolderPath fs sp) "tasks.json"),
                        [Effect.copy (pathJoin extensionPath "template-tasks.json")
                            (pathJoin (getExpectedVsCodeFolderPath fs sp) "tasks.json")]) := by
                  simp [addTasksJson, ensureDirectoryCreated, hr, hsol, hex, ht, hvf]
                rw [hres] at hmem
                simp only [List.mem_singleton, Effect.copy.injEq] at hmem
                obtain ⟨h1, h2⟩ := hmem
                subst h1
                subst h2
                rw [hres]
                exact ⟨rfl, sp, rfl, rfl, rfl⟩
            | false =>
              cases hmk : fs.mkdirOk (getExpectedVsCodeFolderPath fs sp) with
              | false =>
                  simp [addTasksJson, ensureDirectoryCreated, hr, hsol, hex, ht, hvf, hmk] at hmem
              | true =>
                  have hres : addTasksJson fs server extensionPath
                      = (Except.ok (pathJoin (getExpectedVsCodeFolderPath fs sp) "tasks.json"),
                          [Effect.mkdir (getExpectedVsCodeFolderPath fs sp),
                            Effect.copy (pathJoin extensionPath "template-tasks.json")
                              (pathJoin (getExpectedVsCodeFolderPath fs sp) "tasks.json")]) := by
                    simp [addTasksJson, ensureDirectoryCreated, hr, hsol, hex, ht, hvf, hmk]
                  rw [hres] at hmem
                  simp only [List.mem_cons, List.mem_singleton, Effect.copy.injEq] at hmem
                  rcases hmem with hbad | ⟨h1, h2⟩ | hnil
                  · exact absurd hbad (by simp)
                  · subst h1
                    subst h2
                    rw [hres]
                    exact ⟨rfl, sp, rfl, rfl, rfl⟩
                  · exact absurd hnil (by simp)

/-- C8 witness: with the server stopped, `addTasksJson` rejects with the
not-running message and performs no effect at all. -/
theorem addTasksJson_fail_fast_witness :
    addTasksJson allFilesFs stoppedServer "/ext"
      = (Except.error "OmniSharp is not running.", []) :=
  (addTasksJson_fail_fast allFilesFs stoppedServer "/ext").1 rfl

/-- C10: only a generic dnx entry's execute assigns the last-command slot:
its first effect is the assignment, ahead of its single terminal invocation,
so the slot holds the entry afterwards whether or not the terminal run
succeeds; executing a restore entry, or the whole of
`dnxRestoreForProject`, leaves the slot unchanged. -/
theorem lastCommand_frame (onWindows terminalOk : Bool) (last : Option DnxEntry)
    (entry : DnxEntry) (rentry : RestoreEntry) (server : Server) (fileName : String) :
    runExec terminalOk last (dnxEntryExec onWindows entry) = some entry
      ∧ (dnxEntryExec onWindows entry).head? = some (Effect.setLast entry)
      ∧ (∃ cmd args cwd, (dnxEntryExec onWindows entry).tail
          = [Effect.runTerminal cmd args cwd])
      ∧ runExec terminalOk last (restoreEntryExec onWindows rentry) = last
      ∧ (∀ e ∈ restoreEntryExec onWindows rentry, ∀ en, e ≠ Effect.setLast en)
      ∧ runExec terminalOk last (dnxRestoreForProjectRun onWindows server fileName).2 = last := by
  refine ⟨?_, rfl, ⟨_, _, _, rfl⟩, ?_, ?_, ?_⟩
  · cases terminalOk <;> rfl
  · cases terminalOk <;> rfl
  · intro e he en
    simp only [restoreEntryExec, List.mem_singleton] at he
    subst he
    simp
  · unfold dnxRestoreForProjectRun
    cases h : server.info.dnx.projects.find? (fun project => project.path == fileName) <;>
      cases terminalOk <;> rfl

end Commands
